import Mathlib

/-!
Verification of the neraAIchat client streaming orchestrator.

Shallow embedding of the Redux slices and WebSocket handlers of the client:
  * chatSlice.js      — the Message Ledger (messages, partial ASR transcript)
  * sessionsSlice.js  — the Session Registry (items, currentSessionId)
  * settingsSlice.js  — voice-output mode and the Speech Queue
  * sendLlmMessage.js — the completion-channel send path and its onmessage handler
  * VoiceRecorder.jsx — the ASR onmessage handler

JS strings are Lean Strings; a JS falsy string (undefined or "") is the empty
string; a JS value that may be null or absent is an Option.  Reducers become
pure state-transition functions.
-/

/-- JS `String.prototype.trim()`: strip whitespace from both ends.  (Lean's
own String.trim is defined through substring primitives that the kernel cannot
evaluate, so the embedding works on the character list directly.) -/
def jsTrim (s : String) : String :=
  ⟨((s.data.dropWhile Char.isWhitespace).reverse.dropWhile Char.isWhitespace).reverse⟩

/-- A ledger message, as built by the chatSlice prepare callbacks:
id, role, text, creation timestamp and life-cycle status
("streaming" | "final" | "error"). -/
structure Message where
  id : String
  role : String
  text : String
  created_at : String
  status : String
  deriving DecidableEq

/-- chatSlice state: the ordered message ledger plus the live ASR transcript. -/
structure ChatState where
  messages : List Message
  partialAsr : String
  deriving DecidableEq

/-- chatSlice prepare callback for addUserMessage: `id: id || nanoid()`,
role "user", status "final"; `freshId` stands for the nanoid() result and
`now` for `new Date().toISOString()`. -/
def prepareUserMessage (text id freshId now : String) : Message :=
  { id := if id = "" then freshId else id, role := "user", text := text,
    created_at := now, status := "final" }

/-- chatSlice prepare callback for addAssistantMessage: role "assistant",
status "streaming". -/
def prepareAssistantMessage (text id freshId now : String) : Message :=
  { id := if id = "" then freshId else id, role := "assistant", text := text,
    created_at := now, status := "streaming" }

/-- chatSlice addUserMessage reducer: `state.messages.push(action.payload)`. -/
def addUserMessage (st : ChatState) (m : Message) : ChatState :=
  { st with messages := st.messages ++ [m] }

/-- chatSlice addAssistantMessage reducer: `state.messages.push(action.payload)`. -/
def addAssistantMessage (st : ChatState) (m : Message) : ChatState :=
  { st with messages := st.messages ++ [m] }

/-- chatSlice setPartialAsr reducer: `state.partialAsr = action.payload || ''`
(for a string payload, `t || ''` is `t` itself, since the only falsy string is
the empty string). -/
def setPartialAsr (st : ChatState) (t : String) : ChatState :=
  { st with partialAsr := t }

/-- The `find`-then-mutate pattern of updateMessage: set the text of the first
message with the given id (if the text field of the action is present);
leave every other message untouched. -/
def setTextFirst (id : String) (text : Option String) : List Message → List Message
  | [] => []
  | m :: ms =>
    if m.id = id then
      (match text with
       | some t => { m with text := t }
       | none => m) :: ms
    else m :: setTextFirst id text ms

/-- chatSlice updateMessage reducer: `if (!id) return`; find the message with
that id; if found and `text !== undefined`, set its text. -/
def updateMessage (st : ChatState) (id : String) (text : Option String) : ChatState :=
  if id = "" then st
  else { st with messages := setTextFirst id text st.messages }

/-- The `find`-then-mutate pattern of setMessageStatus: overwrite the status of
the first message with the given id. -/
def setStatusFirst (id status : String) : List Message → List Message
  | [] => []
  | m :: ms =>
    if m.id = id then { m with status := status } :: ms
    else m :: setStatusFirst id status ms

/-- chatSlice setMessageStatus reducer: `if (!id || !status) return`; find the
message with that id; if found, `msg.status = status` (unconditionally). -/
def setMessageStatus (st : ChatState) (id status : String) : ChatState :=
  if id = "" ∨ status = "" then st
  else { st with messages := setStatusFirst id status st.messages }

/-- The payload of upsertMessage: a JSON message object whose non-id fields may
be absent (absent = none). -/
structure MsgPatch where
  id : String
  role : Option String
  text : Option String
  created_at : Option String
  status : Option String
  deriving DecidableEq

/-- JS falsiness of the patch status field: absent (undefined) or "". -/
def statusFalsy : Option String → Bool
  | none => true
  | some s => s = ""

/-- upsertMessage found-branch merge:
`{...state.messages[idx], ...msg, status: msg.status || state.messages[idx].status || 'final'}` —
fields present in the patch override, and status resolves through the
falsy-fallback chain. -/
def mergeMsg (old : Message) (p : MsgPatch) : Message :=
  { id := p.id,
    role := p.role.getD old.role,
    text := p.text.getD old.text,
    created_at := p.created_at.getD old.created_at,
    status :=
      if statusFalsy p.status then (if old.status = "" then "final" else old.status)
      else p.status.getD "" }

/-- upsertMessage insert-branch:
`{...msg, status: msg.status || (msg.role === 'assistant' ? 'final' : 'final')}` —
both arms of the conditional are 'final'. -/
def patchToMessage (p : MsgPatch) : Message :=
  { id := p.id,
    role := p.role.getD "",
    text := p.text.getD "",
    created_at := p.created_at.getD "",
    status := if statusFalsy p.status then "final" else p.status.getD "" }

/-- findIndex-then-replace of upsertMessage: merge into the first message with
the patch's id, or push a new entry at the end. -/
def upsertInList (p : MsgPatch) : List Message → List Message
  | [] => [patchToMessage p]
  | m :: ms =>
    if m.id = p.id then mergeMsg m p :: ms
    else m :: upsertInList p ms

/-- chatSlice upsertMessage reducer: `if (!msg || !msg.id) return`; merge into
the matching entry or push a new one. -/
def upsertMessage (st : ChatState) (p : MsgPatch) : ChatState :=
  if p.id = "" then st
  else { st with messages := upsertInList p st.messages }

/-- A registry session: identifier, title, last-update timestamp and preview.
A missing updated_at is the empty string (the code reads
`a?.updated_at || ''`). -/
structure Session where
  session_id : String
  title : String
  updated_at : String
  last_message : String
  deriving DecidableEq

/-- sessionsSlice state: the item list and the active session id
(null = none). -/
structure SessionsState where
  items : List Session
  currentSessionId : Option String
  deriving DecidableEq

/-- The sortSessions comparator: `bTime.localeCompare(aTime)` with missing
timestamps as "" — session a may come before b iff b's timestamp is ≤ a's
(descending), modelling localeCompare as lexicographic string comparison. -/
def sessionAfter (a b : Session) : Prop := b.updated_at ≤ a.updated_at

instance : DecidableRel sessionAfter :=
  fun a b => inferInstanceAs (Decidable (b.updated_at ≤ a.updated_at))

instance : IsTotal Session sessionAfter :=
  ⟨fun a b => le_total b.updated_at a.updated_at⟩

instance : IsTrans Session sessionAfter :=
  ⟨fun _ _ _ hab hbc => le_trans hbc hab⟩

/-- sortSessions: `items.sort(comparator)`.  JS Array.prototype.sort is a
stable sort for the comparator; with a consistent comparator the stable sorted
result is unique, so it is modelled by the stable insertion sort. -/
def sortSessions (items : List Session) : List Session :=
  items.insertionSort sessionAfter

/-- sessionsSlice setSessions reducer:
`state.items = sortSessions([...(action.payload || [])])`. -/
def setSessions (st : SessionsState) (payload : List Session) : SessionsState :=
  { st with items := sortSessions payload }

/-- upsertSession found-branch merge `{...state.items[index], ...session}`:
the payload is a complete session object from the server, so every field of
the old entry is overridden. -/
def mergeSession (old upd : Session) : Session :=
  { session_id := upd.session_id, title := upd.title,
    updated_at := upd.updated_at, last_message := upd.last_message }

/-- findIndex-then-replace of upsertSession: merge into the first entry with
the payload's session_id, or push at the end. -/
def upsertInSessions (s : Session) : List Session → List Session
  | [] => [s]
  | t :: ts =>
    if t.session_id = s.session_id then mergeSession t s :: ts
    else t :: upsertInSessions s ts

/-- sessionsSlice upsertSession reducer: `if (!session || !session.session_id)
return`; replace or push, then `sortSessions(state.items)` (in place). -/
def upsertSession (st : SessionsState) (s : Session) : SessionsState :=
  if s.session_id = "" then st
  else { st with items := sortSessions (upsertInSessions s st.items) }

/-- sessionsSlice removeSession reducer: filter out the session, and when the
removed id was active, reassign to the first remaining session
(`state.items[0]?.session_id || null`). -/
def removeSession (st : SessionsState) (id : String) : SessionsState :=
  let items := st.items.filter (fun s => s.session_id != id)
  let cur :=
    if st.currentSessionId = some id then
      match items.head? with
      | some s => if s.session_id = "" then none else some s.session_id
      | none => none
    else st.currentSessionId
  { items := items, currentSessionId := cur }

/-- sessionsSlice setCurrentSession reducer:
`state.currentSessionId = action.payload || null`. -/
def setCurrentSession (st : SessionsState) (id : String) : SessionsState :=
  { st with currentSessionId := if id = "" then none else some id }

/-- The sessionsSlice initial state: empty item list, no active session. -/
def sessionsInitialState : SessionsState :=
  { items := [], currentSessionId := none }

/-- A Speech Queue item: source message id and the literal text to speak. -/
structure SpeechItem where
  id : String
  text : String
  deriving DecidableEq

/-- settingsSlice state restricted to the fields the streaming core reads;
the numeric tuning fields chunkMs and ttsSpeed are not touched by any claim
and are omitted. -/
structure SettingsState where
  enableRag : Bool
  ttsVoice : String
  voiceMode : Bool
  speechQueue : List SpeechItem
  systemPrompt : String
  memoryNotes : String
  deriving DecidableEq

/-- settingsSlice setVoiceMode reducer: `enabled = !!payload` (modelled by a
Bool parameter); store it and, when disabling, `state.speechQueue = []`. -/
def setVoiceMode (st : SettingsState) (enabled : Bool) : SettingsState :=
  if enabled then { st with voiceMode := true }
  else { st with voiceMode := false, speechQueue := [] }

/-- settingsSlice enqueueSpeech reducer: reject a payload without id or text;
reject when some queued item already has the payload's id; otherwise push
`{id, text}` at the end. -/
def enqueueSpeech (st : SettingsState) (p : SpeechItem) : SettingsState :=
  if p.id = "" ∨ p.text = "" then st
  else if st.speechQueue.any (fun item => item.id = p.id) then st
  else { st with speechQueue := st.speechQueue ++ [{ id := p.id, text := p.text }] }

/-- settingsSlice shiftSpeech reducer: `state.speechQueue.shift()` — drop the
head (a shift on an empty array is a no-op). -/
def shiftSpeech (st : SettingsState) : SettingsState :=
  { st with speechQueue := st.speechQueue.tail }

/-- The single JSON frame sent on the completion connection
(`ws.send(JSON.stringify({...}))` in ws.onopen). -/
structure LlmRequestFrame where
  text : String
  session_id : String
  message_id : String
  assistant_id : String
  system_prompt : String
  memory_notes : String
  deriving DecidableEq

/-- The value sendLlmMessage returns on success: `{ ws, userId, assistantId }`
(the connection handle is external I/O and not part of the state). -/
structure SendHandles where
  userId : String
  assistantId : String
  deriving DecidableEq

/-- The observable outcome of a sendLlmMessage call: the ledger afterwards,
the return value (none = null), and the frames transmitted on the connection. -/
structure SendOutcome where
  chat : ChatState
  result : Option SendHandles
  sentFrames : List LlmRequestFrame
  deriving DecidableEq

/-- sendLlmMessage (up to and including the ws.onopen handler of the success
path): trim the text; bail out returning null when the trimmed text or the
session id is falsy, dispatching nothing; otherwise append the user message,
send the request frame, and append the assistant placeholder with empty text.
`userId` and `assistantId` stand for the two nanoid() values, `now` for the
timestamps. -/
def sendLlmMessage (chat : ChatState)
    (sessionId text systemPrompt memoryNotes userId assistantId now : String) :
    SendOutcome :=
  let payload := jsTrim text
  if payload = "" ∨ sessionId = "" then
    { chat := chat, result := none, sentFrames := [] }
  else
    let chat1 := addUserMessage chat (prepareUserMessage payload userId userId now)
    let frame : LlmRequestFrame :=
      { text := payload, session_id := sessionId, message_id := userId,
        assistant_id := assistantId, system_prompt := jsTrim systemPrompt,
        memory_notes := jsTrim memoryNotes }
    let chat2 := addAssistantMessage chat1 (prepareAssistantMessage "" assistantId assistantId now)
    { chat := chat2,
      result := some { userId := userId, assistantId := assistantId },
      sentFrames := [frame] }

/-- The inbound frames of the completion connection, as parsed by ws.onmessage
in sendLlmMessage.js. -/
inductive LlmEvent where
  | token (text : String)
  | sessionUpdate (session : Option Session) (message : Option MsgPatch)
  | errorEvent (message : String)
  | done
  deriving DecidableEq

/-- The state touched by one completion connection's onmessage handler: the
closure accumulator `acc` plus the two Redux slices it dispatches into. -/
structure LlmConnState where
  acc : String
  chat : ChatState
  sessions : SessionsState
  deriving DecidableEq

/-- ws.onmessage of sendLlmMessage.js: token appends to `acc` and dispatches
updateMessage with the cumulative buffer; session_update dispatches the two
upserts; error and done dispatch setMessageStatus for the connection's
assistant id. -/
def handleLlmEvent (assistantId : String) (st : LlmConnState) (ev : LlmEvent) :
    LlmConnState :=
  match ev with
  | .token t =>
    let acc := st.acc ++ t
    { st with acc := acc, chat := updateMessage st.chat assistantId (some acc) }
  | .sessionUpdate s m =>
    let sessions := match s with
      | some sess => upsertSession st.sessions sess
      | none => st.sessions
    let chat := match m with
      | some p => upsertMessage st.chat p
      | none => st.chat
    { st with sessions := sessions, chat := chat }
  | .errorEvent _ => { st with chat := setMessageStatus st.chat assistantId "error" }
  | .done => { st with chat := setMessageStatus st.chat assistantId "final" }

/-- The inbound frames of the ASR connection, as parsed by ws.onmessage in
VoiceRecorder.jsx. -/
inductive AsrEvent where
  | partialEvent (text : String)
  | finalEvent (text : String)
  | errorEvent (message : String)
  deriving DecidableEq

/-- The state touched by the VoiceRecorder onmessage handler: the chat slice
(live transcript) plus the log of utterance texts handed to sendLlmMessage. -/
structure RecorderState where
  chat : ChatState
  forwarded : List String
  deriving DecidableEq

/-- ws.onmessage of VoiceRecorder.jsx: a partial frame dispatches
setPartialAsr with its text (replacing the previous value); a final frame
clears the transcript and, when the trimmed text is non-empty, calls
sendLlmMessage with it (recorded in `forwarded`); an error frame only sets a
local status label. -/
def handleAsrEvent (st : RecorderState) (ev : AsrEvent) : RecorderState :=
  match ev with
  | .partialEvent t => { st with chat := setPartialAsr st.chat t }
  | .finalEvent t =>
    let chat := setPartialAsr st.chat ""
    let finalText := jsTrim t
    if finalText = "" then { st with chat := chat }
    else { chat := chat, forwarded := st.forwarded ++ [finalText] }
  | .errorEvent _ => st

/-- Concatenation of token fragments in arrival order. -/
def concatAll : List String → String
  | [] => ""
  | f :: fs => f ++ concatAll fs

/-- The first message with a given id (the `find` of the reducers). -/
def getFirst (id : String) : List Message → Option Message
  | [] => none
  | m :: ms => if m.id = id then some m else getFirst id ms

/-! ### Helper lemmas about the first-match mutation pattern -/

theorem getFirst_setStatusFirst (id status : String) :
    ∀ l : List Message,
      getFirst id (setStatusFirst id status l)
        = (getFirst id l).map (fun m => { m with status := status })
  | [] => rfl
  | m :: ms => by
    by_cases h : m.id = id
    · simp [setStatusFirst, getFirst, h]
    · simp [setStatusFirst, getFirst, h, getFirst_setStatusFirst id status ms]

theorem getFirst_setTextFirst (id t : String) :
    ∀ l : List Message,
      getFirst id (setTextFirst id (some t) l)
        = (getFirst id l).map (fun m => { m with text := t })
  | [] => rfl
  | m :: ms => by
    by_cases h : m.id = id
    · simp [setTextFirst, getFirst, h]
    · simp [setTextFirst, getFirst, h, getFirst_setTextFirst id t ms]

theorem getFirst_upsertInList (p : MsgPatch) :
    ∀ l : List Message,
      getFirst p.id (upsertInList p l)
        = some (match getFirst p.id l with
                | some m => mergeMsg m p
                | none => patchToMessage p)
  | [] => by simp [upsertInList, getFirst, patchToMessage]
  | m :: ms => by
    by_cases h : m.id = p.id
    · simp [upsertInList, getFirst, h, mergeMsg]
    · simp [upsertInList, getFirst, h, getFirst_upsertInList p ms]

theorem getFirst_append_of_forall_ne (id : String) (l2 : List Message) :
    ∀ l1 : List Message, (∀ m ∈ l1, m.id ≠ id) →
      getFirst id (l1 ++ l2) = getFirst id l2
  | [], _ => rfl
  | m :: ms, h => by
    have hm : m.id ≠ id := h m (List.mem_cons_self m ms)
    simp only [List.cons_append, getFirst, if_neg hm]
    exact getFirst_append_of_forall_ne id l2 ms (fun x hx => h x (List.mem_cons_of_mem m hx))

/-! ### C1 -/

/-- Concrete one-message ledger used to exhibit duplicate-id appends. -/
def c1Msg : Message :=
  { id := "a", role := "user", text := "hi", created_at := "t0", status := "final" }

/-- Concrete chat state holding c1Msg. -/
def c1Chat : ChatState := { messages := [c1Msg], partialAsr := "" }

/-- C1 counterexample: appending a message whose id ("a") is already in the
ledger is not a no-op — the ledger grows and now holds two messages with
id "a". -/
theorem addUserMessage_duplicate_id_not_noop :
    (addUserMessage c1Chat c1Msg).messages.length ≠ c1Chat.messages.length ∧
    ¬ ((addUserMessage c1Chat c1Msg).messages.map Message.id).Nodup := by decide

/-- C1 (amended): addUserMessage and addAssistantMessage always push the
prepared message at the end, with no duplicate-id check: the pre-existing
messages are unchanged, the size grows by one, and appending an id already
present yields two messages with that id. -/
theorem addMessage_always_pushes (st : ChatState) (m : Message) :
    (addUserMessage st m).messages = st.messages ++ [m] ∧
    (addAssistantMessage st m).messages = st.messages ++ [m] ∧
    (addUserMessage st m).messages.length = st.messages.length + 1 ∧
    (m.id ∈ st.messages.map Message.id →
      ¬ ((addUserMessage st m).messages.map Message.id).Nodup) := by
  refine ⟨rfl, rfl, by simp [addUserMessage], ?_⟩
  intro hmem hnodup
  rw [show (addUserMessage st m).messages = st.messages ++ [m] from rfl] at hnodup
  rw [List.map_append, List.nodup_append] at hnodup
  exact hnodup.2.2 hmem (by simp)

/-- Witness for the amended C1 theorem at the concrete duplicate input. -/
theorem addMessage_always_pushes_witness :
    ¬ ((addUserMessage c1Chat c1Msg).messages.map Message.id).Nodup :=
  (addMessage_always_pushes c1Chat c1Msg).2.2.2 (by decide)

/-! ### C2 -/

/-- Concrete ledger with one finalized assistant message, id "m". -/
def c2Chat : ChatState :=
  { messages :=
      [{ id := "m", role := "assistant", text := "done", created_at := "t1",
         status := "final" }],
    partialAsr := "" }

/-- C2 counterexample: the message with id "m" is final, yet
setMessageStatus "m" "streaming" moves its status back to streaming — the
status machine is not forward-only. -/
theorem setMessageStatus_resurrects_streaming :
    (getFirst "m" c2Chat.messages).map Message.status = some "final" ∧
    (getFirst "m" (setMessageStatus c2Chat "m" "streaming").messages).map Message.status
      = some "streaming" := by decide

/-- C2 (amended): no forward-only check exists.  setMessageStatus overwrites
the status of the first message with the given id with any non-empty status,
terminal or not; upsertMessage resolves the stored status to the patch's
status whenever that field is non-falsy (so a reconciling upsert carrying
status "streaming" does set a final message back to streaming), and keeps the
existing status only when the patch's status field is absent or empty. -/
theorem setStatus_overwrites_unconditionally (st : ChatState) (id status : String) :
    (∀ m, id ≠ "" → status ≠ "" → getFirst id st.messages = some m →
      getFirst id (setMessageStatus st id status).messages
        = some { m with status := status }) ∧
    (∀ (p : MsgPatch) m, p.id ≠ "" → getFirst p.id st.messages = some m →
      getFirst p.id (upsertMessage st p).messages = some (mergeMsg m p)) := by
  constructor
  · intro m hid hstatus hfound
    rw [setMessageStatus, if_neg (by simp [hid, hstatus])]
    show getFirst id (setStatusFirst id status st.messages) = _
    rw [getFirst_setStatusFirst, hfound]
    rfl
  · intro p m hid hfound
    rw [upsertMessage, if_neg hid]
    show getFirst p.id (upsertInList p st.messages) = _
    rw [getFirst_upsertInList, hfound]

/-- Witness for the amended C2 theorem: at the concrete final message both the
setMessageStatus overwrite and the status-carrying upsert land on
"streaming". -/
theorem setStatus_overwrites_unconditionally_witness :
    getFirst "m" (setMessageStatus c2Chat "m" "streaming").messages
        = some { id := "m", role := "assistant", text := "done", created_at := "t1",
                 status := "streaming" } ∧
    getFirst "m"
        (upsertMessage c2Chat
          { id := "m", role := none, text := none, created_at := none,
            status := some "streaming" }).messages
      = some { id := "m", role := "assistant", text := "done", created_at := "t1",
               status := "streaming" } := by
  constructor
  · exact (setStatus_overwrites_unconditionally c2Chat "m" "streaming").1
      { id := "m", role := "assistant", text := "done", created_at := "t1",
        status := "final" }
      (by decide) (by decide) (by decide)
  · exact (setStatus_overwrites_unconditionally c2Chat "m" "streaming").2
      { id := "m", role := none, text := none, created_at := none,
        status := some "streaming" }
      { id := "m", role := "assistant", text := "done", created_at := "t1",
        status := "final" }
      (by decide) (by decide)

/-! ### C4 -/

/-- The message ids currently admitted to the Speech Queue. -/
def speechIds (st : SettingsState) : List String :=
  st.speechQueue.map SpeechItem.id

/-- C4: Speech Queue admission and discipline — enqueueSpeech with an id
already anywhere in the queue leaves the state unchanged; enqueueSpeech and
shiftSpeech preserve distinctness of queued ids; shiftSpeech removes exactly
the head. -/
theorem speechQueue_admission_fifo (st : SettingsState) (p : SpeechItem) :
    (p.id ∈ speechIds st → enqueueSpeech st p = st) ∧
    ((speechIds st).Nodup → (speechIds (enqueueSpeech st p)).Nodup) ∧
    ((speechIds st).Nodup → (speechIds (shiftSpeech st)).Nodup) ∧
    (shiftSpeech st).speechQueue = st.speechQueue.tail := by
  have hany : p.id ∈ speechIds st ↔
      st.speechQueue.any (fun item => item.id = p.id) = true := by
    constructor
    · intro hmem
      obtain ⟨a, ha, hae⟩ := List.mem_map.mp hmem
      exact List.any_eq_true.mpr ⟨a, ha, by simp [hae]⟩
    · intro h
      obtain ⟨a, ha, hae⟩ := List.any_eq_true.mp h
      exact List.mem_map.mpr ⟨a, ha, by simpa using hae⟩
  refine ⟨?_, ?_, ?_, rfl⟩
  · intro hmem
    rw [enqueueSpeech]
    by_cases hguard : p.id = "" ∨ p.text = ""
    · rw [if_pos hguard]
    · rw [if_neg hguard, if_pos (hany.mp hmem)]
  · intro hnodup
    rw [enqueueSpeech]
    by_cases hguard : p.id = "" ∨ p.text = ""
    · rw [if_pos hguard]; exact hnodup
    · rw [if_neg hguard]
      by_cases hq : st.speechQueue.any (fun item => item.id = p.id) = true
      · rw [if_pos hq]; exact hnodup
      · rw [if_neg hq]
        have hnot : p.id ∉ speechIds st := fun hm => hq (hany.mp hm)
        simp only [speechIds, List.map_append, List.nodup_append]
        exact ⟨hnodup, by simp, by
          intro x hx hx'
          simp only [List.map_cons, List.map_nil, List.mem_singleton] at hx'
          exact hnot (hx' ▸ hx)⟩
  · intro hnodup
    have hsub : (shiftSpeech st).speechQueue.Sublist st.speechQueue :=
      List.tail_sublist st.speechQueue
    exact (hsub.map SpeechItem.id).nodup hnodup

/-- Concrete two-item Speech Queue state for the C4 witness. -/
def c4Settings : SettingsState :=
  { enableRag := true, ttsVoice := "en", voiceMode := true,
    speechQueue := [{ id := "m1", text := "Done." }, { id := "m2", text := "Next" }],
    systemPrompt := "", memoryNotes := "" }

/-- Concrete duplicate enqueue payload for the C4 witness. -/
def c4Item : SpeechItem := { id := "m1", text := "Done." }

/-- Witness for C4 at a concrete two-item queue and a duplicate enqueue. -/
theorem speechQueue_admission_fifo_witness :
    enqueueSpeech c4Settings c4Item = c4Settings ∧
    (speechIds (shiftSpeech c4Settings)).Nodup := by
  constructor
  · exact (speechQueue_admission_fifo c4Settings c4Item).1 (by decide)
  · exact (speechQueue_admission_fifo c4Settings c4Item).2.2.1 (by decide)

/-! ### C5 -/

/-- C5: disabling voice-output mode empties the Speech Queue regardless of its
prior depth, while enabling it leaves the queue untouched. -/
theorem setVoiceMode_clears_queue (st : SettingsState) :
    (setVoiceMode st false).speechQueue = [] ∧
    (setVoiceMode st false).voiceMode = false ∧
    (setVoiceMode st true).speechQueue = st.speechQueue ∧
    (setVoiceMode st true).voiceMode = true :=
  ⟨rfl, rfl, rfl, rfl⟩

/-! ### C3 -/

/-- C3: per-connection token accumulation.  If the connection's assistant
message is in the ledger with text equal to the accumulator (as the empty
placeholder is at open), then after any sequence of token events the
accumulator and the message text both equal the prior accumulator followed by
the concatenation of the fragments in arrival order; in particular one token
event takes the text from s to s ++ f, never a reordering and never a diff. -/
theorem token_fragments_concatenate (assistantId : String) (fragments : List String)
    (st : LlmConnState) (m : Message)
    (hid : assistantId ≠ "")
    (hm : getFirst assistantId st.chat.messages = some m)
    (htext : m.text = st.acc) :
    (fragments.foldl (fun s f => handleLlmEvent assistantId s (.token f)) st).acc
        = st.acc ++ concatAll fragments ∧
    getFirst assistantId
        (fragments.foldl (fun s f => handleLlmEvent assistantId s (.token f)) st).chat.messages
      = some { m with text := st.acc ++ concatAll fragments } := by
  induction fragments generalizing st m with
  | nil =>
    constructor
    · show st.acc = st.acc ++ concatAll []
      rw [concatAll, String.append_empty]
    · show getFirst assistantId st.chat.messages
        = some { m with text := st.acc ++ concatAll [] }
      rw [concatAll, String.append_empty, hm, ← htext]
  | cons f fs ih =>
    have hacc : (handleLlmEvent assistantId st (.token f)).acc = st.acc ++ f := rfl
    have hstep : getFirst assistantId
        (handleLlmEvent assistantId st (.token f)).chat.messages
        = some { m with text := st.acc ++ f } := by
      show getFirst assistantId
        (updateMessage st.chat assistantId (some (st.acc ++ f))).messages = _
      rw [updateMessage, if_neg hid]
      show getFirst assistantId
        (setTextFirst assistantId (some (st.acc ++ f)) st.chat.messages) = _
      rw [getFirst_setTextFirst, hm]
      rfl
    obtain ⟨ha, hg⟩ := ih (handleLlmEvent assistantId st (.token f))
      { m with text := st.acc ++ f } hstep rfl
    rw [List.foldl_cons]
    constructor
    · rw [ha, hacc]
      show st.acc ++ f ++ concatAll fs = st.acc ++ (f ++ concatAll fs)
      rw [String.append_assoc]
    · rw [hg, hacc]
      show some { m with text := st.acc ++ f ++ concatAll fs }
        = some { m with text := st.acc ++ (f ++ concatAll fs) }
      rw [String.append_assoc]

/-- The freshly opened assistant placeholder of the C3 witness scenario. -/
def c3Placeholder : Message :=
  { id := "a1", role := "assistant", text := "", created_at := "t0",
    status := "streaming" }

/-- The connection state of the C3 witness scenario right after open: empty
accumulator, ledger holding only the placeholder. -/
def c3Start : LlmConnState :=
  { acc := "",
    chat := { messages := [c3Placeholder], partialAsr := "" },
    sessions := sessionsInitialState }

/-- Witness for C3: the scenario accumulator — placeholder open with empty
text, tokens "Hi" then " there" arrive, text becomes "Hi there". -/
theorem token_fragments_concatenate_witness :
    (["Hi", " there"].foldl
        (fun s f => handleLlmEvent "a1" s (.token f)) c3Start).acc
      = "" ++ concatAll ["Hi", " there"] ∧
    getFirst "a1"
        (["Hi", " there"].foldl
          (fun s f => handleLlmEvent "a1" s (.token f)) c3Start).chat.messages
      = some { c3Placeholder with text := "" ++ concatAll ["Hi", " there"] } :=
  token_fragments_concatenate "a1" ["Hi", " there"] c3Start c3Placeholder
    (by decide) (by decide) (by decide)

/-! ### C6 -/

/-- C6: with an unset session or an all-whitespace prompt, sendLlmMessage
returns null, transmits no frame, and leaves the ledger exactly as it was. -/
theorem send_fails_without_side_effects (chat : ChatState)
    (sessionId text systemPrompt memoryNotes userId assistantId now : String)
    (h : jsTrim text = "" ∨ sessionId = "") :
    sendLlmMessage chat sessionId text systemPrompt memoryNotes userId assistantId now
      = { chat := chat, result := none, sentFrames := [] } := by
  simp only [sendLlmMessage]
  rw [if_pos h]

/-- Witness for C6: sending "Hello" with no session id is rejected with the
ledger untouched. -/
theorem send_fails_without_side_effects_witness :
    sendLlmMessage { messages := [], partialAsr := "" } "" "Hello" "" "" "u1" "a1" "t0"
      = { chat := { messages := [], partialAsr := "" }, result := none,
          sentFrames := [] } :=
  send_fails_without_side_effects { messages := [], partialAsr := "" }
    "" "Hello" "" "" "u1" "a1" "t0" (Or.inr rfl)

/-! ### Helper lemma for the C7 terminal transition -/

theorem setStatusFirst_append_of_forall_ne (id status : String) (l2 : List Message) :
    ∀ l1 : List Message, (∀ m ∈ l1, m.id ≠ id) →
      setStatusFirst id status (l1 ++ l2) = l1 ++ setStatusFirst id status l2
  | [], _ => rfl
  | m :: ms, h => by
    have hm : m.id ≠ id := h m (List.mem_cons_self m ms)
    show setStatusFirst id status (m :: (ms ++ l2))
      = m :: (ms ++ setStatusFirst id status l2)
    rw [setStatusFirst, if_neg hm,
      setStatusFirst_append_of_forall_ne id status l2 ms
        (fun x hx => h x (List.mem_cons_of_mem m hx))]

/-! ### C7 -/

/-- C7: the successful send path appends a final user message carrying the
trimmed prompt, then a streaming assistant placeholder with empty text bound
to the connection's assistant id; and the connection's done event sets that
placeholder's status to final.  The hypotheses say the trimmed prompt is
non-empty, the session is bound, and the assistant id is a fresh non-empty
nanoid (distinct from the user id and from every ledger id). -/
theorem send_success_appends_then_done_finalizes (chat : ChatState)
    (sessionId text systemPrompt memoryNotes userId assistantId now acc : String)
    (sessions : SessionsState)
    (hp : jsTrim text ≠ "") (hs : sessionId ≠ "")
    (hid : assistantId ≠ "") (hu : userId ≠ assistantId)
    (hfresh : ∀ m ∈ chat.messages, m.id ≠ assistantId) :
    (sendLlmMessage chat sessionId text systemPrompt memoryNotes userId assistantId now).chat.messages
        = chat.messages
            ++ [prepareUserMessage (jsTrim text) userId userId now,
                prepareAssistantMessage "" assistantId assistantId now] ∧
    (prepareUserMessage (jsTrim text) userId userId now).role = "user" ∧
    (prepareUserMessage (jsTrim text) userId userId now).status = "final" ∧
    (prepareUserMessage (jsTrim text) userId userId now).text = jsTrim text ∧
    (prepareAssistantMessage "" assistantId assistantId now).role = "assistant" ∧
    (prepareAssistantMessage "" assistantId assistantId now).status = "streaming" ∧
    (prepareAssistantMessage "" assistantId assistantId now).text = "" ∧
    getFirst assistantId
        (handleLlmEvent assistantId
          { acc := acc,
            chat := (sendLlmMessage chat sessionId text systemPrompt memoryNotes
              userId assistantId now).chat,
            sessions := sessions }
          .done).chat.messages
      = some { prepareAssistantMessage "" assistantId assistantId now with
               status := "final" } := by
  have huid : (prepareUserMessage (jsTrim text) userId userId now).id = userId := by
    simp [prepareUserMessage]
  have haid : (prepareAssistantMessage "" assistantId assistantId now).id = assistantId := by
    simp [prepareAssistantMessage]
  have hmsgs : (sendLlmMessage chat sessionId text systemPrompt memoryNotes
      userId assistantId now).chat.messages
      = chat.messages
          ++ [prepareUserMessage (jsTrim text) userId userId now,
              prepareAssistantMessage "" assistantId assistantId now] := by
    simp only [sendLlmMessage]
    rw [if_neg (not_or.mpr ⟨hp, hs⟩)]
    show (chat.messages
        ++ [prepareUserMessage (jsTrim text) userId userId now])
        ++ [prepareAssistantMessage "" assistantId assistantId now] = _
    rw [List.append_assoc]
    rfl
  refine ⟨hmsgs, rfl, rfl, rfl, rfl, rfl, rfl, ?_⟩
  show getFirst assistantId
      (setMessageStatus ((sendLlmMessage chat sessionId text systemPrompt memoryNotes
        userId assistantId now).chat) assistantId "final").messages
    = some { prepareAssistantMessage "" assistantId assistantId now with
             status := "final" }
  rw [setMessageStatus, if_neg (by simp [hid])]
  show getFirst assistantId
      (setStatusFirst assistantId "final"
        (sendLlmMessage chat sessionId text systemPrompt memoryNotes
          userId assistantId now).chat.messages)
    = some { prepareAssistantMessage "" assistantId assistantId now with
             status := "final" }
  rw [hmsgs,
    setStatusFirst_append_of_forall_ne assistantId "final" _ chat.messages hfresh,
    getFirst_append_of_forall_ne assistantId _ chat.messages hfresh]
  simp [setStatusFirst, getFirst, huid, haid, hu]

/-- Witness for C7: sending "Hello" on session "S1" into the empty ledger with
fresh ids, then receiving done. -/
theorem send_success_appends_then_done_finalizes_witness :
    (sendLlmMessage { messages := [], partialAsr := "" } "S1" "Hello" "" "" "u1" "a1" "t0").chat.messages
        = [] ++ [prepareUserMessage (jsTrim "Hello") "u1" "u1" "t0",
                 prepareAssistantMessage "" "a1" "a1" "t0"] ∧
    (prepareUserMessage (jsTrim "Hello") "u1" "u1" "t0").role = "user" ∧
    (prepareUserMessage (jsTrim "Hello") "u1" "u1" "t0").status = "final" ∧
    (prepareUserMessage (jsTrim "Hello") "u1" "u1" "t0").text = jsTrim "Hello" ∧
    (prepareAssistantMessage "" "a1" "a1" "t0").role = "assistant" ∧
    (prepareAssistantMessage "" "a1" "a1" "t0").status = "streaming" ∧
    (prepareAssistantMessage "" "a1" "a1" "t0").text = "" ∧
    getFirst "a1"
        (handleLlmEvent "a1"
          { acc := "",
            chat := (sendLlmMessage { messages := [], partialAsr := "" }
              "S1" "Hello" "" "" "u1" "a1" "t0").chat,
            sessions := sessionsInitialState }
          .done).chat.messages
      = some { prepareAssistantMessage "" "a1" "a1" "t0" with status := "final" } :=
  send_success_appends_then_done_finalizes { messages := [], partialAsr := "" }
    "S1" "Hello" "" "" "u1" "a1" "t0" "" sessionsInitialState
    (by decide) (by decide) (by decide) (by decide)
    (by intro m hm; cases hm)

/-! ### C8 -/

/-- The recorder state at the start of the C8 scenario: empty ledger, empty
live transcript, nothing forwarded yet. -/
def c8Start : RecorderState :=
  { chat := { messages := [], partialAsr := "" }, forwarded := [] }

/-- C8: the ASR scenario — after partial "he" then partial "hello" the live
transcript is "hello" (replaced, not appended); after final "hello world" the
transcript is cleared and the trimmed text is forwarded to the completion
send exactly once. -/
theorem asr_partial_replaces_final_forwards_once :
    (([AsrEvent.partialEvent "he", AsrEvent.partialEvent "hello"]).foldl
        handleAsrEvent c8Start).chat.partialAsr = "hello" ∧
    (([AsrEvent.partialEvent "he", AsrEvent.partialEvent "hello",
       AsrEvent.finalEvent "hello world"]).foldl handleAsrEvent c8Start).chat.partialAsr
      = "" ∧
    (([AsrEvent.partialEvent "he", AsrEvent.partialEvent "hello",
       AsrEvent.finalEvent "hello world"]).foldl handleAsrEvent c8Start).forwarded
      = ["hello world"] := by decide

/-! ### C9 -/

/-- The Session Registry invariant as a decidable check: the active session
id, when set, names a session present in the item list. -/
def registryHolds (st : SessionsState) : Bool :=
  st.currentSessionId.all (fun id => st.items.any (fun s => s.session_id = id))

/-- C9 counterexample: from the initial registry (empty, invariant holds),
the single operation setCurrentSession "S1" reaches a state whose active id
references no session in the registry — the operation neither clears nor
reassigns it. -/
theorem setCurrentSession_breaks_invariant :
    registryHolds sessionsInitialState = true ∧
    registryHolds (setCurrentSession sessionsInitialState "S1") = false := by decide

/-- C9 (amended): only removeSession maintains the invariant — it reassigns
the active id to the first remaining session (or null) when the active
session is removed and preserves the invariant otherwise; setCurrentSession
and setSessions perform no validation, so the invariant does not hold in all
reachable states. -/
theorem removeSession_preserves_invariant (st : SessionsState) (id : String)
    (h : registryHolds st = true) :
    registryHolds (removeSession st id) = true := by
  simp only [removeSession]
  by_cases hc : st.currentSessionId = some id
  · rw [if_pos hc]
    rcases hhead : (st.items.filter (fun s => s.session_id != id)).head? with _ | s
    · simp only [hhead, registryHolds, Option.all_none]
    · simp only [hhead]
      by_cases hs : s.session_id = ""
      · rw [if_pos hs]
        simp only [registryHolds, Option.all_none]
      · rw [if_neg hs]
        simp only [registryHolds, Option.all_some]
        have hmem : s ∈ st.items.filter (fun t => t.session_id != id) := by
          cases hL : st.items.filter (fun t => t.session_id != id) with
          | nil => rw [hL] at hhead; simp at hhead
          | cons x xs =>
            rw [hL] at hhead
            simp only [List.head?_cons, Option.some.injEq] at hhead
            exact List.mem_cons.mpr (Or.inl hhead.symm)
        exact List.any_eq_true.mpr ⟨s, hmem, by simp⟩
  · rw [if_neg hc]
    rcases hcur : st.currentSessionId with _ | c
    · simp only [registryHolds, hcur, Option.all_none]
    · simp only [registryHolds, hcur, Option.all_some] at h ⊢
      obtain ⟨s, hsmem, hsc⟩ := List.any_eq_true.mp h
      have hsc' : s.session_id = c := by simpa using hsc
      have hcid : c ≠ id := fun hEq => hc (by rw [hcur, hEq])
      refine List.any_eq_true.mpr ⟨s, List.mem_filter.mpr ⟨hsmem, ?_⟩, hsc⟩
      simp [hsc', hcid]

/-- Witness for the amended C9 theorem: removing the active session of a
one-session registry leaves the invariant intact (the active id is cleared). -/
theorem removeSession_preserves_invariant_witness :
    registryHolds
      (removeSession
        { items := [{ session_id := "S1", title := "t", updated_at := "u",
                      last_message := "p" }],
          currentSessionId := some "S1" }
        "S1") = true :=
  removeSession_preserves_invariant
    { items := [{ session_id := "S1", title := "t", updated_at := "u",
                  last_message := "p" }],
      currentSessionId := some "S1" }
    "S1" (by decide)

/-! ### Helper lemmas for C10: the insertion sort is stable on equal
timestamps -/

theorem filter_orderedInsert_timestamp (k : String) (a : Session) :
    ∀ l : List Session,
      (List.orderedInsert sessionAfter a l).filter (fun t => t.updated_at == k)
        = if a.updated_at = k
            then a :: l.filter (fun t => t.updated_at == k)
            else l.filter (fun t => t.updated_at == k)
  | [] => by
    by_cases h : a.updated_at = k <;>
      simp [List.orderedInsert, List.filter_cons, h]
  | b :: l => by
    by_cases hr : sessionAfter a b
    · rw [List.orderedInsert, if_pos hr]
      by_cases h : a.updated_at = k <;> simp [List.filter_cons, h]
    · rw [List.orderedInsert, if_neg hr]
      rw [List.filter_cons, List.filter_cons,
        filter_orderedInsert_timestamp k a l]
      by_cases h : a.updated_at = k
      · have hlt : a.updated_at < b.updated_at := not_le.mp hr
        have hbk : ¬ b.updated_at = k := fun hEq => absurd (h ▸ hEq ▸ hlt) (lt_irrefl _)
        simp [h, hbk]
      · by_cases hb : b.updated_at = k <;> simp [h, hb]

theorem filter_insertionSort_timestamp (k : String) :
    ∀ l : List Session,
      (List.insertionSort sessionAfter l).filter (fun t => t.updated_at == k)
        = l.filter (fun t => t.updated_at == k)
  | [] => rfl
  | a :: l => by
    rw [List.insertionSort, filter_orderedInsert_timestamp k a _,
      filter_insertionSort_timestamp k l, List.filter_cons]
    by_cases h : a.updated_at = k <;> simp [h]

/-! ### C10 -/

/-- C10: after setSessions or upsertSession the registry's item list is
sorted in descending lexicographic order of updated_at (missing = ""), and
the sort is stable — sessions with equal timestamps keep the relative order
they had in the incoming list; removeSession preserves sortedness since
filtering keeps relative positions. -/
theorem sessions_sorted_desc (st : SessionsState) (payload : List Session)
    (s : Session) (id k : String) :
    List.Sorted sessionAfter (setSessions st payload).items ∧
    (setSessions st payload).items.filter (fun t => t.updated_at == k)
        = payload.filter (fun t => t.updated_at == k) ∧
    (s.session_id ≠ "" → List.Sorted sessionAfter (upsertSession st s).items) ∧
    (List.Sorted sessionAfter st.items →
      List.Sorted sessionAfter (removeSession st id).items) := by
  refine ⟨?_, ?_, ?_, ?_⟩
  · exact List.sorted_insertionSort sessionAfter payload
  · exact filter_insertionSort_timestamp k payload
  · intro hs
    rw [upsertSession, if_neg hs]
    exact List.sorted_insertionSort sessionAfter _
  · intro hsorted
    show List.Sorted sessionAfter (st.items.filter fun t => t.session_id != id)
    exact List.Pairwise.filter _ hsorted

/-- Concrete session for the C10 witness. -/
def c10Session : Session :=
  { session_id := "B", title := "b", updated_at := "2024-06-01",
    last_message := "" }

/-- Witness for C10 at concrete inputs: upserting into and removing from the
empty registry both yield sorted item lists. -/
theorem sessions_sorted_desc_witness :
    List.Sorted sessionAfter (upsertSession sessionsInitialState c10Session).items ∧
    List.Sorted sessionAfter (removeSession sessionsInitialState "A").items :=
  ⟨(sessions_sorted_desc sessionsInitialState [] c10Session "A" "").2.2.1 (by decide),
   (sessions_sorted_desc sessionsInitialState [] c10Session "A" "").2.2.2 (by decide)⟩
